import Mathlib

/-!
Verification development for the KPI chatbot engine's query-safety and
connection-lifecycle pipeline.

The Python sources are embedded shallowly:

* Python strings are Lean `String`s; the character-level operations
  (`upper`, `strip`, `replace`, `in`, `startswith`) are re-implemented on
  `List Char` for the ASCII inputs the pipeline handles.
* Python dicts are insertion-ordered association lists
  (`List (String × α)`) with unique keys; `aset`/`aerase`/`alookup`
  mirror item assignment, `del`, and `get`.
* Network effects (`psycopg` connection tests, schema extraction) are
  passed in as explicit outcome parameters, since the store code only
  branches on their success and stores their result.
-/

set_option maxRecDepth 100000
set_option linter.unusedVariables false

namespace KPI

/-! ## Character/string primitives used by the Python code -/

/-- ASCII uppercase, modelling `str.upper()` on the ASCII SQL text involved. -/
def toUpperAscii (c : Char) : Char :=
  if 'a' ≤ c ∧ c ≤ 'z' then Char.ofNat (c.toNat - 32) else c

/-- ASCII lowercase, modelling `str.lower()` on the ASCII text involved. -/
def toLowerAscii (c : Char) : Char :=
  if 'A' ≤ c ∧ c ≤ 'Z' then Char.ofNat (c.toNat + 32) else c

/-- The whitespace characters `str.strip()` removes (ASCII portion). -/
def isPySpace (c : Char) : Bool :=
  c = ' ' ∨ c = '\t' ∨ c = '\n' ∨ c = '\r' ∨ c = Char.ofNat 11 ∨ c = Char.ofNat 12

/-- `str.strip()`: drop whitespace from both ends. -/
def pyStrip (l : List Char) : List Char :=
  ((l.dropWhile isPySpace).reverse.dropWhile isPySpace).reverse

/-- Worker for `replaceAll`, structurally recursive on a fuel bound so that
it evaluates inside the kernel; `fuel = s.length` always suffices because
each step consumes at least one character of `s`. -/
def replaceAllFuel : Nat → List Char → List Char → List Char → List Char
  | 0, s, _, _ => s
  | fuel + 1, s, pat, rep =>
    match s with
    | [] => []
    | c :: rest =>
      if pat ≠ [] ∧ pat.isPrefixOf (c :: rest) then
        rep ++ replaceAllFuel fuel ((c :: rest).drop pat.length) pat rep
      else
        c :: replaceAllFuel fuel rest pat rep

/-- `str.replace(pat, "")`-style replacement: left-to-right, non-overlapping. -/
def replaceAll (s pat rep : List Char) : List Char :=
  replaceAllFuel s.length s pat rep

/-- Python's substring test `pat in hay` (note `"" in s` is `True`). -/
def containsSub (hay pat : List Char) : Bool :=
  if pat.isPrefixOf hay then true
  else
    match hay with
    | [] => false
    | _ :: rest => containsSub rest pat

/-- Lowercased character data of a string, as used by `key.lower()` / `query.lower()`. -/
def lowerData (s : String) : List Char := s.data.map toLowerAscii

/-! ## SQL Safety Gate

`DatabaseManager.sanitize_sql` (src/backend/database.py, lines 225-247)
and `GeminiService._is_safe_sql` (src/services/gemini_service.py,
lines 241-256).
-/

/-- The keyword blocklist of `DatabaseManager.sanitize_sql`
(note: `GRANT` and `REVOKE` are absent from this list in the source). -/
def dangerousKeywords : List String :=
  ["DROP", "DELETE", "INSERT", "UPDATE", "ALTER", "CREATE",
   "TRUNCATE", "EXEC", "EXECUTE", "MERGE", "CALL"]

/-- `sql_query.replace('```sql', '').replace('```', '').strip()` — the
fence-stripped statement that `sanitize_sql` both inspects and returns. -/
def fenceStripped (sql : String) : List Char :=
  pyStrip (replaceAll (replaceAll sql.data "```sql".data []) "```".data [])

/-- `query_upper = sql_query.upper().strip()` — the uppercased copy used
for keyword inspection only. -/
def upperInspect (sql : String) : List Char :=
  pyStrip ((fenceStripped sql).map toUpperAscii)

/-- `DatabaseManager.sanitize_sql`: strip markdown fences, require the
uppercased statement to start with `SELECT`, reject when any blocklisted
keyword occurs anywhere, otherwise return the (case-preserved) statement. -/
def sanitizeSql (sql : String) : Option String :=
  if "SELECT".data.isPrefixOf (upperInspect sql) = false then none
  else if dangerousKeywords.any (fun kw => containsSub (upperInspect sql) kw.data) then none
  else some (String.mk (fenceStripped sql))

/-- The keyword blocklist of `GeminiService._is_safe_sql`
(note: `MERGE` and `CALL` are absent from this list in the source). -/
def safeSqlKeywords : List String :=
  ["INSERT", "UPDATE", "DELETE", "DROP", "CREATE", "ALTER",
   "TRUNCATE", "EXEC", "EXECUTE", "GRANT", "REVOKE"]

/-- `GeminiService._is_safe_sql`: uppercase and strip, reject on any
blocklisted keyword, then require the statement to start with `SELECT`. -/
def isSafeSql (sql : String) : Bool :=
  let sqlUpper := pyStrip (sql.data.map toUpperAscii)
  if safeSqlKeywords.any (fun kw => containsSub sqlUpper kw.data) then false
  else "SELECT".data.isPrefixOf sqlUpper

example : sanitizeSql "SELECT 1" = some "SELECT 1" := by decide
example : sanitizeSql "DROP TABLE x" = none := by decide
example : sanitizeSql "select * from t; DELETE from t" = none := by decide
example : isSafeSql "SELECT 1" = true := by decide
example : isSafeSql "DROP TABLE x" = false := by decide

/-! ## Deterministic fallback SQL generator

`GeminiService._generate_fallback_sql` (src/services/gemini_service.py,
lines 285-329). The five returned literals are transcribed verbatim,
including the indentation and trailing blanks of the Python
triple-quoted strings.
-/

/-- The `"average salary by department"` fallback statement. -/
def fallbackAvgSalarySql : String :=
  "\n                SELECT department, \n                       AVG(COALESCE(salary, 0)) as avg_salary,\n                       COUNT(*) as employee_count \n                FROM employees \n                GROUP BY department \n                ORDER BY avg_salary DESC \n                LIMIT 10;\n                "

/-- The `"employee count by department"` fallback statement. -/
def fallbackDeptCountSql : String :=
  "\n                SELECT department, COUNT(*) as employee_count \n                FROM employees \n                GROUP BY department \n                ORDER BY employee_count DESC \n                LIMIT 10;\n                "

/-- The `"loan amount by status"` fallback statement. -/
def fallbackLoanAmountSql : String :=
  "\n                SELECT loan_status, \n                       SUM(COALESCE(loan_amount, 0)) as total_amount,\n                       COUNT(*) as loan_count \n                FROM loans \n                GROUP BY loan_status \n                ORDER BY total_amount DESC;\n                "

/-- The `"customer count by type"` fallback statement. -/
def fallbackCustomerCountSql : String :=
  "\n                SELECT customer_type, COUNT(*) as customer_count \n                FROM customers \n                GROUP BY customer_type \n                ORDER BY customer_count DESC;\n                "

/-- The generic fallback statement. -/
def fallbackGenericSql : String :=
  "SELECT 'No data available' as message, 0 as count;"

/-- `GeminiService._generate_fallback_sql`: pick one of five fixed SELECT
statements from keywords of the lowercased natural-language query (the
`sector` argument is accepted but unused by the source). -/
def generateFallbackSql (query : String) (sector : String) : String :=
  let queryLower := lowerData query
  if containsSub queryLower "salary".data || containsSub queryLower "department".data then
    if containsSub queryLower "average".data then fallbackAvgSalarySql
    else fallbackDeptCountSql
  else if containsSub queryLower "loan".data || containsSub queryLower "customer".data then
    if containsSub queryLower "amount".data then fallbackLoanAmountSql
    else fallbackCustomerCountSql
  else fallbackGenericSql

example : isSafeSql fallbackAvgSalarySql = true := by decide
example : isSafeSql fallbackGenericSql = true := by decide
example : generateFallbackSql "AVERAGE salary please" "ithr" = fallbackAvgSalarySql := by decide

/-! ## C1: SQL Safety Gate keyword coverage -/

/-- C1 (counterexample): the claim says `sanitize` returns null whenever any
of the thirteen keywords — `GRANT` among them — appears in the uppercased,
fence-stripped statement. On `"SELECT * FROM grants"` the keyword `GRANT`
does appear, yet `sanitize_sql` returns the statement unchanged, because
`GRANT` (and `REVOKE`) are missing from its blocklist. -/
theorem c1_sanitize_gate_counterexample :
    containsSub (upperInspect "SELECT * FROM grants") "GRANT".data = true ∧
    sanitizeSql "SELECT * FROM grants" = some "SELECT * FROM grants" := by
  decide

/-- C1 (amended): `sanitize_sql` returns null exactly when the uppercased,
fence-stripped statement does not start with `SELECT` or one of the ELEVEN
keywords `DROP, DELETE, INSERT, UPDATE, ALTER, CREATE, TRUNCATE, EXEC,
EXECUTE, MERGE, CALL` occurs anywhere in it (`GRANT` and `REVOKE` are not
checked); in particular `sanitize("select * from t; DELETE from t") = null`,
`sanitize("SELECT 1")` is non-null, `sanitize("DROP TABLE x") = null`, and
the code fences of `"```sql\nSELECT 1\n```"` are stripped with case
preserved. -/
theorem c1_sanitize_gate_amended :
    (∀ sql : String, sanitizeSql sql = none ↔
      ("SELECT".data.isPrefixOf (upperInspect sql) = false ∨
       dangerousKeywords.any (fun kw => containsSub (upperInspect sql) kw.data) = true)) ∧
    sanitizeSql "select * from t; DELETE from t" = none ∧
    sanitizeSql "SELECT 1" = some "SELECT 1" ∧
    sanitizeSql "DROP TABLE x" = none ∧
    sanitizeSql "```sql\nSELECT 1\n```" = some "SELECT 1" := by
  refine ⟨fun sql => ?_, by decide, by decide, by decide, by decide⟩
  unfold sanitizeSql
  cases h1 : "SELECT".data.isPrefixOf (upperInspect sql) <;>
    cases h2 : dangerousKeywords.any (fun kw => containsSub (upperInspect sql) kw.data) <;>
      simp [h1, h2]

/-- C1 (witness): the amended characterization applied at a concrete
rejected input. -/
theorem c1_sanitize_gate_witness :
    sanitizeSql "INSERT INTO t VALUES (1)" = none :=
  (c1_sanitize_gate_amended.1 "INSERT INTO t VALUES (1)").mpr (Or.inl (by decide))

/-! ## C10: the fallback SQL always passes the safety check -/

/-- C10: for every natural-language query string and every sector string,
the SQL text returned by `_generate_fallback_sql` passes `_is_safe_sql`:
it starts with `SELECT` after stripping and contains no blocklisted
keyword, so the fallback path never produces SQL the safety check rejects. -/
theorem c10_fallback_always_safe :
    ∀ (query sector : String), isSafeSql (generateFallbackSql query sector) = true := by
  intro query sector
  simp only [generateFallbackSql]
  split
  · split <;> decide
  · split
    · split <;> decide
    · decide

/-! ## Python dicts as insertion-ordered association lists

`alookup`, `aset`, `aerase` model `d.get(k)`, `d[k] = v`, and `del d[k]`
on dicts (which have unique keys and preserve insertion order; `aset`
therefore replaces in place when the key is present and appends
otherwise). `keys` models `list(d.keys())`.
-/

/-- `d.get(k)`: the value at the first (for a dict: only) occurrence of `k`. -/
def alookup {α : Type} : List (String × α) → String → Option α
  | [], _ => none
  | (k, v) :: rest, key => if k = key then some v else alookup rest key

/-- `list(d.keys())`. -/
def keys {α : Type} (l : List (String × α)) : List String := l.map Prod.fst

/-- `d[k] = v`: replace the entry in place when the key is present
(a dict has at most one), append at the end when absent. -/
def aset {α : Type} : List (String × α) → String → α → List (String × α)
  | [], key, v => [(key, v)]
  | (k0, v0) :: rest, key, v =>
    if k0 = key then (key, v) :: rest else (k0, v0) :: aset rest key v

/-- `d.pop(k, None)` / `del d[k]`: drop the entry with the key. -/
def aerase {α : Type} : List (String × α) → String → List (String × α)
  | [], _ => []
  | (k0, v0) :: rest, key =>
    if k0 = key then aerase rest key else (k0, v0) :: aerase rest key

/-! ## Backend Connection Store

`DatabaseConfigService` in src/backend/services/database_config.py.
The schema payload returned by `extract_schema` is opaque to the store
(it is only tested for success and stored), so it is a type parameter
`σ`; the outcomes of the two network calls `test_connection` and
`extract_schema` are explicit parameters `testOk : Bool` and
`schemaRes : Option σ` (`none` models the `psycopg` exception
propagating out of `extract_schema`).
-/

/-- The credential parameters passed to `add_connection`. -/
structure ConnParams where
  host : String
  port : Nat
  database : String
  username : String
  password : String
deriving DecidableEq, Repr

/-- One stored connection record
(`{**params, "type": ..., "isActive": ..., "schema": ..., "lastConnected": ...}`). -/
structure Conn (σ : Type) where
  host : String
  port : Nat
  database : String
  username : String
  password : String
  type : String
  isActive : Bool
  schema : Option σ
  lastConnected : Option String
deriving DecidableEq, Repr

/-- One user's section of the config:
`{"currentConnection": ..., "connections": {...}}`. -/
structure UserCfg (σ : Type) where
  currentConnection : Option String
  connections : List (String × Conn σ)
deriving DecidableEq, Repr

/-- The whole config document `{"users": {...}}`. -/
structure Config (σ : Type) where
  users : List (String × UserCfg σ)
deriving DecidableEq, Repr

/-- The store's initial state for a fresh durable file (`{"users": {}}`). -/
def initConfig {σ : Type} : Config σ := ⟨[]⟩

/-- The user's section, defaulting to an empty one — callers guard with
`setdefault`/falsy checks, mirrored at each call site. -/
def userOf {σ : Type} (c : Config σ) (userId : String) : UserCfg σ :=
  (alookup c.users userId).getD ⟨none, []⟩

/-- `self.config["users"].setdefault(user_id, {"currentConnection": None, "connections": {}})`. -/
def ensureUser {σ : Type} (c : Config σ) (userId : String) : Config σ :=
  ⟨if userId ∈ keys c.users then c.users else c.users ++ [(userId, ⟨none, []⟩)]⟩

/-- The dedup-key comparison of `_find_existing_connection`. -/
def matchesParams {σ : Type} (conn : Conn σ) (p : ConnParams) : Bool :=
  conn.host == p.host && conn.port == p.port &&
    conn.database == p.database && conn.username == p.username

/-- `DatabaseConfigService._find_existing_connection`: the id of the first
stored connection of the user with the same `(host, port, database,
username)` key, if any. -/
def findExisting {σ : Type} (u : UserCfg σ) (p : ConnParams) : Option String :=
  (u.connections.find? (fun kc => matchesParams kc.2 p)).map Prod.fst

/-- The deactivation loop
`for key in ...: connections[key]["isActive"] = False`. -/
def deactivateAll {σ : Type} (l : List (String × Conn σ)) :
    List (String × Conn σ) :=
  l.map (fun kc => (kc.1, { kc.2 with isActive := false }))

/-- `connections[key]["isActive"] = True` for one key. -/
def setActiveFlag {σ : Type} (l : List (String × Conn σ)) (key : String) :
    List (String × Conn σ) :=
  l.map (fun kc => if kc.1 = key then (kc.1, { kc.2 with isActive := true }) else kc)

/-- The record stored by `add_connection`:
`{**params, "type": "postgresql", "isActive": True, "schema": schema,
"lastConnected": ...utcnow()...}`. -/
def mkConn {σ : Type} (p : ConnParams) (schema : σ) (now : String) : Conn σ :=
  ⟨p.host, p.port, p.database, p.username, p.password, "postgresql",
    true, some schema, some now⟩

/-- What `add_connection` hands back to its caller. -/
inductive AddResult (σ : Type) where
  /-- `{"success": False, "error": "Failed to connect ..."}`. -/
  | connFailed : AddResult σ
  /-- `extract_schema` raised; the exception propagates, no dict is returned. -/
  | schemaExn : AddResult σ
  /-- `{"success": True, "schema": s, "isExisting": True,
  "existingConnectionId": eid}`. -/
  | refreshed (schema : σ) (existingId : String) : AddResult σ
  /-- `{"success": True, "schema": s}` (new record created). -/
  | added (schema : σ) : AddResult σ
deriving DecidableEq, Repr

/-- The user's section after the deactivation loop ran on it. -/
def deactivatedUser {σ : Type} (u : UserCfg σ) : UserCfg σ :=
  { u with connections := deactivateAll u.connections }

/-- The user's section after the deactivation loop, storing the (active)
record under `id`, and pointing `currentConnection` at it — the common
tail of both successful `add_connection` branches. -/
def activatedUser {σ : Type} (u : UserCfg σ) (id : String) (p : ConnParams)
    (schema : σ) (now : String) : UserCfg σ :=
  ⟨some id, aset (deactivateAll u.connections) id (mkConn p schema now)⟩

/-- `DatabaseConfigService.add_connection`. Returns the new store state,
the call's outcome, and whether `_save_config` ran. In the
refresh-existing branch the source deactivates every connection of the
user BEFORE awaiting `extract_schema`, so a schema failure there leaves
the in-memory store with the flags already cleared; in the new-connection
branch extraction runs first, so a failure there leaves the user's
section untouched. -/
def addConnection {σ : Type} (c : Config σ) (userId connectionId : String)
    (p : ConnParams) (testOk : Bool) (schemaRes : Option σ) (now : String) :
    Config σ × AddResult σ × Bool :=
  if testOk = false then (c, .connFailed, false)
  else
    match findExisting (userOf (ensureUser c userId) userId) p, schemaRes with
    | some existingId, none =>
      (⟨aset (ensureUser c userId).users userId
          (deactivatedUser (userOf (ensureUser c userId) userId))⟩,
       .schemaExn, false)
    | some existingId, some schema =>
      (⟨aset (ensureUser c userId).users userId
          (activatedUser (userOf (ensureUser c userId) userId) existingId p schema now)⟩,
       .refreshed schema existingId, true)
    | none, none => (ensureUser c userId, .schemaExn, false)
    | none, some schema =>
      (⟨aset (ensureUser c userId).users userId
          (activatedUser (userOf (ensureUser c userId) userId) connectionId p schema now)⟩,
       .added schema, true)

/-- `DatabaseConfigService.get_current_connection`. -/
def getCurrentConnection {σ : Type} (c : Config σ) (userId : String) :
    Option (Conn σ) :=
  match alookup c.users userId with
  | none => none
  | some u =>
    match u.currentConnection with
    | none => none
    | some cid => alookup u.connections cid

/-- `DatabaseConfigService.set_active_connection`. -/
def setActiveConnection {σ : Type} (c : Config σ) (userId connectionId : String) :
    Config σ × Bool :=
  match alookup c.users userId with
  | none => (c, false)
  | some u =>
    if connectionId ∈ keys u.connections then
      (⟨aset c.users userId
          ⟨some connectionId, setActiveFlag (deactivateAll u.connections) connectionId⟩⟩,
       true)
    else (c, false)

/-- The user's section after `remove_connection` deleted `connectionId`:
when it was the `currentConnection`, the first remaining id (if any) is
promoted to current and its active flag set. -/
def removedUser {σ : Type} (u : UserCfg σ) (connectionId : String) : UserCfg σ :=
  if u.currentConnection = some connectionId then
    match keys (aerase u.connections connectionId) with
    | [] => ⟨none, aerase u.connections connectionId⟩
    | r0 :: _ => ⟨some r0, setActiveFlag (aerase u.connections connectionId) r0⟩
  else ⟨u.currentConnection, aerase u.connections connectionId⟩

/-- `DatabaseConfigService.remove_connection`. -/
def removeConnection {σ : Type} (c : Config σ) (userId connectionId : String) :
    Config σ × Bool :=
  match alookup c.users userId with
  | none => (c, false)
  | some u =>
    if connectionId ∈ keys u.connections then
      (⟨aset c.users userId (removedUser u connectionId)⟩, true)
    else (c, false)

/-- The stored connection with id `connectionId` of user `userId`, if any. -/
def connOf {σ : Type} (c : Config σ) (userId connectionId : String) :
    Option (Conn σ) :=
  (alookup c.users userId).bind (fun u => alookup u.connections connectionId)

/-! The call sequences of C2: each step is one `add_connection`,
`set_active_connection` or `remove_connection` call with its network
outcomes. -/

/-- One store call. -/
inductive Op (σ : Type) where
  | add (userId connectionId : String) (p : ConnParams) (testOk : Bool)
      (schemaRes : Option σ) (now : String) : Op σ
  | setActive (userId connectionId : String) : Op σ
  | remove (userId connectionId : String) : Op σ
deriving DecidableEq, Repr

/-- The store state after one call. -/
def applyOp {σ : Type} (c : Config σ) : Op σ → Config σ
  | .add userId connectionId p testOk schemaRes now =>
    (addConnection c userId connectionId p testOk schemaRes now).1
  | .setActive userId connectionId => (setActiveConnection c userId connectionId).1
  | .remove userId connectionId => (removeConnection c userId connectionId).1

/-- The store state after a sequence of calls. -/
def applyOps {σ : Type} (c : Config σ) (ops : List (Op σ)) : Config σ :=
  ops.foldl applyOp c

/-- How many of the user's connections have `isActive = true`. -/
def countActive {σ : Type} (u : UserCfg σ) : Nat :=
  (u.connections.filter (fun kc => kc.2.isActive)).length

/-! ## Association-list lemmas -/

section AListLemmas

variable {α : Type}

theorem keys_nil : keys ([] : List (String × α)) = [] := rfl

theorem keys_cons {k0 : String} {v0 : α} {rest : List (String × α)} :
    keys ((k0, v0) :: rest) = k0 :: keys rest := rfl

theorem alookup_cons_eq {k0 k : String} {v0 : α} {rest : List (String × α)}
    (h : k0 = k) : alookup ((k0, v0) :: rest) k = some v0 := by
  simp [alookup, h]

theorem alookup_cons_ne {k0 k : String} {v0 : α} {rest : List (String × α)}
    (h : k0 ≠ k) : alookup ((k0, v0) :: rest) k = alookup rest k := by
  simp [alookup, h]

theorem aset_cons_eq {k0 key : String} {v0 v : α} {rest : List (String × α)}
    (h : k0 = key) : aset ((k0, v0) :: rest) key v = (key, v) :: rest := by
  simp [aset, h]

theorem aset_cons_ne {k0 key : String} {v0 v : α} {rest : List (String × α)}
    (h : k0 ≠ key) : aset ((k0, v0) :: rest) key v = (k0, v0) :: aset rest key v := by
  simp [aset, h]

theorem aerase_cons_eq {k0 key : String} {v0 : α} {rest : List (String × α)}
    (h : k0 = key) : aerase ((k0, v0) :: rest) key = aerase rest key := by
  simp [aerase, h]

theorem aerase_cons_ne {k0 key : String} {v0 : α} {rest : List (String × α)}
    (h : k0 ≠ key) : aerase ((k0, v0) :: rest) key = (k0, v0) :: aerase rest key := by
  simp [aerase, h]

theorem alookup_mem {l : List (String × α)} {k : String} {v : α}
    (h : alookup l k = some v) : (k, v) ∈ l := by
  induction l with
  | nil => simp [alookup] at h
  | cons kv rest ih =>
    obtain ⟨k0, v0⟩ := kv
    by_cases hk : k0 = k
    · subst hk
      simp [alookup] at h
      simp [h]
    · simp [alookup, hk] at h
      exact List.mem_cons_of_mem _ (ih h)

theorem alookup_eq_none_iff {l : List (String × α)} {k : String} :
    alookup l k = none ↔ k ∉ keys l := by
  induction l with
  | nil => simp [alookup, keys]
  | cons kv rest ih =>
    obtain ⟨k0, v0⟩ := kv
    by_cases hk : k0 = k
    · subst hk
      simp [alookup, keys]
    · simp [alookup, hk, keys] at ih ⊢
      exact ⟨fun h => ⟨fun he => hk he.symm, (ih.mp h)⟩, fun h => ih.mpr h.2⟩

theorem mem_keys_iff_alookup {l : List (String × α)} {k : String} :
    k ∈ keys l ↔ ∃ v, alookup l k = some v := by
  constructor
  · intro h
    cases hv : alookup l k with
    | none => exact absurd (alookup_eq_none_iff.mp hv) (by simp [h])
    | some v => exact ⟨v, rfl⟩
  · rintro ⟨v, hv⟩
    by_contra hk
    rw [alookup_eq_none_iff.mpr hk] at hv
    exact Option.noConfusion hv

theorem alookup_append {l1 l2 : List (String × α)} {k : String} :
    alookup (l1 ++ l2) k =
      match alookup l1 k with
      | some v => some v
      | none => alookup l2 k := by
  induction l1 with
  | nil => simp [alookup]
  | cons kv rest ih =>
    obtain ⟨k0, v0⟩ := kv
    by_cases hk : k0 = k <;> simp [alookup, hk, ih]

theorem keys_aset_mem {l : List (String × α)} {key : String} {v : α}
    (h : key ∈ keys l) : keys (aset l key v) = keys l := by
  induction l with
  | nil => simp [keys_nil] at h
  | cons kv rest ih =>
    obtain ⟨k0, v0⟩ := kv
    by_cases hk : k0 = key
    · subst hk; rw [aset_cons_eq rfl]; rfl
    · rw [keys_cons, List.mem_cons] at h
      rcases h with h | h
      · exact absurd h.symm hk
      · rw [aset_cons_ne hk, keys_cons, keys_cons, ih h]

theorem keys_aset_not_mem {l : List (String × α)} {key : String} {v : α}
    (h : key ∉ keys l) : keys (aset l key v) = keys l ++ [key] := by
  induction l with
  | nil => rfl
  | cons kv rest ih =>
    obtain ⟨k0, v0⟩ := kv
    rw [keys_cons, List.mem_cons] at h
    push_neg at h
    rw [aset_cons_ne (Ne.symm h.1), keys_cons, keys_cons, ih h.2]
    rfl

theorem mem_keys_aset_self {l : List (String × α)} {key : String} {v : α} :
    key ∈ keys (aset l key v) := by
  by_cases h : key ∈ keys l
  · rw [keys_aset_mem h]; exact h
  · rw [keys_aset_not_mem h]; simp

theorem mem_keys_aset {l : List (String × α)} {key k : String} {v : α}
    (h : k ∈ keys (aset l key v)) : k ∈ keys l ∨ k = key := by
  by_cases hm : key ∈ keys l
  · rw [keys_aset_mem hm] at h; exact Or.inl h
  · rw [keys_aset_not_mem hm] at h
    simpa using h

theorem nodup_keys_aset {l : List (String × α)} {key : String} {v : α}
    (h : (keys l).Nodup) : (keys (aset l key v)).Nodup := by
  by_cases hm : key ∈ keys l
  · rw [keys_aset_mem hm]; exact h
  · rw [keys_aset_not_mem hm]
    simp [List.nodup_append, h, hm]

theorem alookup_aset_self {l : List (String × α)} {key : String} {v : α} :
    alookup (aset l key v) key = some v := by
  induction l with
  | nil => simp [aset, alookup]
  | cons kv rest ih =>
    obtain ⟨k0, v0⟩ := kv
    by_cases hk : k0 = key
    · subst hk; simp [aset, alookup]
    · simp [aset, hk, alookup, ih]

theorem alookup_aset_ne {l : List (String × α)} {key k : String} {v : α}
    (h : k ≠ key) : alookup (aset l key v) k = alookup l k := by
  induction l with
  | nil => simp [aset, alookup, Ne.symm h]
  | cons kv rest ih =>
    obtain ⟨k0, v0⟩ := kv
    by_cases hk : k0 = key
    · subst hk; simp [aset, alookup, Ne.symm h]
    · by_cases hk2 : k0 = k
      · subst hk2; simp [aset, hk, alookup]
      · simp [aset, hk, alookup, hk2, ih]

theorem mem_aset {l : List (String × α)} {key : String} {v : α} {x : String × α}
    (nd : (keys l).Nodup) (h : x ∈ aset l key v) :
    x = (key, v) ∨ (x ∈ l ∧ x.1 ≠ key) := by
  induction l with
  | nil =>
    rw [show aset ([] : List (String × α)) key v = [(key, v)] from rfl,
      List.mem_singleton] at h
    exact Or.inl h
  | cons kv rest ih =>
    obtain ⟨k0, v0⟩ := kv
    rw [keys_cons, List.nodup_cons] at nd
    by_cases hk : k0 = key
    · subst hk
      rw [aset_cons_eq rfl, List.mem_cons] at h
      rcases h with h | h
      · exact Or.inl h
      · refine Or.inr ⟨List.mem_cons_of_mem _ h, fun hx => nd.1 ?_⟩
        rw [← hx]
        exact List.mem_map_of_mem Prod.fst h
    · rw [aset_cons_ne hk, List.mem_cons] at h
      rcases h with h | h
      · subst h; exact Or.inr ⟨List.mem_cons_self _ _, hk⟩
      · rcases ih nd.2 h with h1 | h1
        · exact Or.inl h1
        · exact Or.inr ⟨List.mem_cons_of_mem _ h1.1, h1.2⟩

theorem length_aset_mem {l : List (String × α)} {key : String} {v : α}
    (h : key ∈ keys l) : (aset l key v).length = l.length := by
  induction l with
  | nil => simp [keys] at h
  | cons kv rest ih =>
    obtain ⟨k0, v0⟩ := kv
    by_cases hk : k0 = key
    · subst hk; simp [aset]
    · simp only [keys, List.map_cons, List.mem_cons] at h
      rcases h with h | h
      · exact absurd h.symm hk
      · simp [aset, hk, ih h]

theorem mem_aerase {l : List (String × α)} {key : String} {x : String × α} :
    x ∈ aerase l key ↔ x ∈ l ∧ x.1 ≠ key := by
  induction l with
  | nil => simp [aerase]
  | cons kv rest ih =>
    obtain ⟨k0, v0⟩ := kv
    by_cases hk : k0 = key
    · subst hk
      rw [aerase_cons_eq rfl, ih, List.mem_cons]
      constructor
      · rintro ⟨h1, h2⟩; exact ⟨Or.inr h1, h2⟩
      · rintro ⟨h1 | h1, h2⟩
        · subst h1; simp at h2
        · exact ⟨h1, h2⟩
    · rw [aerase_cons_ne hk, List.mem_cons, List.mem_cons, ih]
      constructor
      · rintro (h | ⟨h1, h2⟩)
        · subst h; exact ⟨Or.inl rfl, hk⟩
        · exact ⟨Or.inr h1, h2⟩
      · rintro ⟨h1 | h1, h2⟩
        · exact Or.inl h1
        · exact Or.inr ⟨h1, h2⟩

theorem alookup_aerase_self {l : List (String × α)} {key : String} :
    alookup (aerase l key) key = none := by
  induction l with
  | nil => simp [aerase, alookup]
  | cons kv rest ih =>
    obtain ⟨k0, v0⟩ := kv
    by_cases hk : k0 = key
    · subst hk; simp [aerase, ih]
    · simp [aerase, hk, alookup, ih]

theorem alookup_aerase_ne {l : List (String × α)} {key k : String}
    (h : k ≠ key) : alookup (aerase l key) k = alookup l k := by
  induction l with
  | nil => simp [aerase]
  | cons kv rest ih =>
    obtain ⟨k0, v0⟩ := kv
    by_cases hk : k0 = key
    · subst hk; simp [aerase, alookup, Ne.symm h, ih]
    · by_cases hk2 : k0 = k
      · subst hk2; simp [aerase, hk, alookup]
      · simp [aerase, hk, alookup, hk2, ih]

theorem aerase_sublist {l : List (String × α)} {key : String} :
    (aerase l key).Sublist l := by
  induction l with
  | nil => simp [aerase]
  | cons kv rest ih =>
    obtain ⟨k0, v0⟩ := kv
    by_cases hk : k0 = key
    · subst hk; simp only [aerase, if_pos rfl]
      exact ih.cons _
    · simp only [aerase, if_neg hk]
      exact ih.cons₂ _

theorem keys_aerase_subset {l : List (String × α)} {key k : String}
    (h : k ∈ keys (aerase l key)) : k ∈ keys l ∧ k ≠ key := by
  simp only [keys, List.mem_map] at h
  obtain ⟨kv, hkv, hx⟩ := h
  rw [mem_aerase] at hkv
  subst hx
  exact ⟨List.mem_map_of_mem Prod.fst hkv.1, hkv.2⟩

theorem nodup_keys_aerase {l : List (String × α)} {key : String}
    (h : (keys l).Nodup) : (keys (aerase l key)).Nodup :=
  List.Nodup.sublist (List.Sublist.map Prod.fst aerase_sublist) h

theorem mem_keys_aerase {l : List (String × α)} {key k : String}
    (h1 : k ∈ keys l) (h2 : k ≠ key) : k ∈ keys (aerase l key) := by
  simp only [keys, List.mem_map] at h1 ⊢
  obtain ⟨kv, hkv, hx⟩ := h1
  exact ⟨kv, mem_aerase.mpr ⟨hkv, by rw [hx]; exact h2⟩, hx⟩

theorem keys_eq_nil {l : List (String × α)} (h : keys l = []) : l = [] :=
  List.map_eq_nil.mp h

theorem alookup_head_of_keys {l : List (String × α)} {k : String} {t : List String}
    (h : keys l = k :: t) : ∃ v, alookup l k = some v := by
  match l with
  | [] => simp [keys_nil] at h
  | (k0, v0) :: rest =>
    rw [keys_cons] at h
    injection h with h1 h2
    exact ⟨v0, alookup_cons_eq h1⟩

end AListLemmas

/-! ## Lemmas about the flag-mutation loops -/

section FlagLemmas

variable {σ : Type}

theorem keys_deactivateAll {l : List (String × Conn σ)} :
    keys (deactivateAll l) = keys l := by
  simp [deactivateAll, keys, List.map_map]

theorem setActiveFlag_cons_eq {k0 key : String} {v0 : Conn σ}
    {rest : List (String × Conn σ)} (h : k0 = key) :
    setActiveFlag ((k0, v0) :: rest) key =
      (k0, { v0 with isActive := true }) :: setActiveFlag rest key := by
  simp [setActiveFlag, h]

theorem setActiveFlag_cons_ne {k0 key : String} {v0 : Conn σ}
    {rest : List (String × Conn σ)} (h : k0 ≠ key) :
    setActiveFlag ((k0, v0) :: rest) key = (k0, v0) :: setActiveFlag rest key := by
  simp [setActiveFlag, h]

theorem length_deactivateAll {l : List (String × Conn σ)} :
    (deactivateAll l).length = l.length := by
  simp [deactivateAll]

theorem mem_deactivateAll {l : List (String × Conn σ)} {x : String × Conn σ}
    (h : x ∈ deactivateAll l) :
    x.2.isActive = false ∧ ∃ r, (x.1, r) ∈ l ∧ x.2 = { r with isActive := false } := by
  simp only [deactivateAll, List.mem_map] at h
  obtain ⟨kv, hkv, hx⟩ := h
  subst hx
  exact ⟨rfl, kv.2, hkv, rfl⟩

theorem alookup_deactivateAll {l : List (String × Conn σ)} {k : String} :
    alookup (deactivateAll l) k =
      (alookup l k).map (fun r => { r with isActive := false }) := by
  induction l with
  | nil => simp [deactivateAll, alookup]
  | cons kv rest ih =>
    obtain ⟨k0, v0⟩ := kv
    by_cases hk : k0 = k
    · subst hk
      simp [deactivateAll, alookup_cons_eq rfl, alookup]
    · simp only [deactivateAll, List.map_cons] at ih ⊢
      rw [alookup_cons_ne hk, alookup_cons_ne hk, ih]

theorem keys_setActiveFlag {l : List (String × Conn σ)} {key : String} :
    keys (setActiveFlag l key) = keys l := by
  simp only [setActiveFlag, keys, List.map_map]
  apply List.map_congr_left
  intro kv _
  by_cases hk : kv.1 = key <;> simp [hk]

theorem alookup_setActiveFlag_self {l : List (String × Conn σ)} {key : String} :
    alookup (setActiveFlag l key) key =
      (alookup l key).map (fun r => { r with isActive := true }) := by
  induction l with
  | nil => simp [setActiveFlag, alookup]
  | cons kv rest ih =>
    obtain ⟨k0, v0⟩ := kv
    by_cases hk : k0 = key
    · subst hk
      rw [setActiveFlag_cons_eq rfl, alookup_cons_eq rfl, alookup_cons_eq rfl]
      rfl
    · rw [setActiveFlag_cons_ne hk, alookup_cons_ne hk, alookup_cons_ne hk, ih]

theorem mem_setActiveFlag {l : List (String × Conn σ)} {key : String}
    {x : String × Conn σ} (h : x ∈ setActiveFlag l key) :
    (x.1 = key ∧ ∃ r, (key, r) ∈ l ∧ x.2 = { r with isActive := true }) ∨
      (x ∈ l ∧ x.1 ≠ key) := by
  simp only [setActiveFlag, List.mem_map] at h
  obtain ⟨kv, hkv, hx⟩ := h
  by_cases hk : kv.1 = key
  · rw [if_pos hk] at hx
    subst hx
    exact Or.inl ⟨hk, kv.2, by rw [← hk]; exact hkv, rfl⟩
  · rw [if_neg hk] at hx
    subst hx
    exact Or.inr ⟨hkv, hk⟩

end FlagLemmas

/-! ## The active-connection invariants -/

section Invariants

variable {σ : Type}

/-- The per-user coherence the store maintains: connection ids are unique
(a dict), every active record is the `currentConnection`, and the
`currentConnection` (when set) exists. -/
def UserOK (u : UserCfg σ) : Prop :=
  (keys u.connections).Nodup ∧
  (∀ kc ∈ u.connections, kc.2.isActive = true → u.currentConnection = some kc.1) ∧
  (∀ k, u.currentConnection = some k → k ∈ keys u.connections)

/-- The stronger per-user property: a user with connections has an active
`currentConnection`. -/
def UserStrong (u : UserCfg σ) : Prop :=
  u.connections ≠ [] →
    ∃ k r, u.currentConnection = some k ∧
      alookup u.connections k = some r ∧ r.isActive = true

/-- Store-wide coherence. -/
def ConfigOK (c : Config σ) : Prop :=
  (keys c.users).Nodup ∧ ∀ uid u, alookup c.users uid = some u → UserOK u

/-- Store-wide strengthened coherence. -/
def ConfigStrong (c : Config σ) : Prop :=
  ConfigOK c ∧ ∀ uid u, alookup c.users uid = some u → UserStrong u

theorem length_le_one_of_all_eq {l : List String} {a : String}
    (nd : l.Nodup) (h : ∀ x ∈ l, x = a) : l.length ≤ 1 := by
  match l with
  | [] => simp
  | [x] => simp
  | x :: y :: rest =>
    exfalso
    rw [List.nodup_cons] at nd
    have hx : x = a := h x (List.mem_cons_self _ _)
    have hy : y = a := h y (List.mem_cons_of_mem _ (List.mem_cons_self _ _))
    exact nd.1 (by rw [hx, hy]; exact List.mem_cons_self _ _)

theorem countActive_le_one {u : UserCfg σ} (h : UserOK u) : countActive u ≤ 1 := by
  obtain ⟨nd, hact, -⟩ := h
  unfold countActive
  cases hcur : u.currentConnection with
  | none =>
    have : u.connections.filter (fun kc => kc.2.isActive) = [] := by
      rw [List.filter_eq_nil]
      intro kc hkc hA
      rw [hact kc hkc hA] at hcur
      exact Option.noConfusion hcur
    simp [this]
  | some k0 =>
    rw [← List.length_map _ Prod.fst]
    apply length_le_one_of_all_eq
    · exact List.Nodup.sublist
        (List.Sublist.map Prod.fst (List.filter_sublist _)) nd
    · intro x hx
      rw [List.mem_map] at hx
      obtain ⟨kc, hkc, hxe⟩ := hx
      rw [List.mem_filter] at hkc
      have := hact kc hkc.1 (by simpa using hkc.2)
      rw [hcur] at this
      rw [← hxe]
      exact (Option.some_inj.mp this.symm)

theorem countActive_eq_one {u : UserCfg σ} (hok : UserOK u) (hs : UserStrong u)
    (hne : u.connections ≠ []) : countActive u = 1 := by
  obtain ⟨k, r, -, hlook, hact⟩ := hs hne
  have hmem : (k, r) ∈ u.connections.filter (fun kc => kc.2.isActive) := by
    rw [List.mem_filter]
    exact ⟨alookup_mem hlook, by simpa using hact⟩
  have h1 : 1 ≤ countActive u := by
    unfold countActive
    exact List.length_pos.mpr (fun he => by simp [he] at hmem)
  exact Nat.le_antisymm (countActive_le_one hok) h1

end Invariants

/-! ## Invariant preservation, operation by operation -/

section Preservation

variable {σ : Type}

theorem userOK_empty : UserOK (⟨none, []⟩ : UserCfg σ) := by
  refine ⟨List.nodup_nil, ?_, ?_⟩
  · intro kc hkc; simp at hkc
  · intro k hk; exact Option.noConfusion hk

theorem userOK_userOf {c : Config σ} {uid : String} (h : ConfigOK c) :
    UserOK (userOf c uid) := by
  unfold userOf
  cases hu : alookup c.users uid with
  | none => exact userOK_empty
  | some u => exact h.2 uid u hu

theorem userStrong_userOf {c : Config σ} {uid : String} (h : ConfigStrong c) :
    UserStrong (userOf c uid) := by
  unfold userOf
  cases hu : alookup c.users uid with
  | none => intro hne; simp at hne
  | some u => exact h.2 uid u hu

theorem users_lookup_ensureUser {c : Config σ} {uid k : String} :
    alookup (ensureUser c uid).users k =
      if k = uid then some (userOf c uid) else alookup c.users k := by
  unfold ensureUser userOf
  by_cases hm : uid ∈ keys c.users
  · rw [if_pos hm]
    by_cases hk : k = uid
    · subst hk
      obtain ⟨v, hv⟩ := mem_keys_iff_alookup.mp hm
      simp [hv]
    · rw [if_neg hk]
  · rw [if_neg hm]
    by_cases hk : k = uid
    · subst hk
      rw [if_pos rfl, alookup_append, alookup_eq_none_iff.mpr hm]
      simp [alookup]
    · rw [if_neg hk, alookup_append]
      cases hv : alookup c.users k with
      | some v => rfl
      | none => simp [alookup, Ne.symm hk]

theorem userOf_ensureUser {c : Config σ} {uid : String} :
    userOf (ensureUser c uid) uid = userOf c uid := by
  unfold userOf
  rw [users_lookup_ensureUser, if_pos rfl]
  rfl

theorem configOK_ensureUser {c : Config σ} {uid : String} (h : ConfigOK c) :
    ConfigOK (ensureUser c uid) := by
  constructor
  · unfold ensureUser
    by_cases hm : uid ∈ keys c.users
    · rw [if_pos hm]; exact h.1
    · rw [if_neg hm]
      have : keys (c.users ++ [(uid, (⟨none, []⟩ : UserCfg σ))]) =
          keys c.users ++ [uid] := by simp [keys]
      rw [this]
      simp [List.nodup_append, h.1, hm]
  · intro k u hu
    rw [users_lookup_ensureUser] at hu
    by_cases hk : k = uid
    · rw [if_pos hk] at hu
      cases hu
      exact userOK_userOf h
    · rw [if_neg hk] at hu
      exact h.2 k u hu

theorem configStrong_ensureUser {c : Config σ} {uid : String}
    (h : ConfigStrong c) : ConfigStrong (ensureUser c uid) := by
  refine ⟨configOK_ensureUser h.1, ?_⟩
  intro k u hu
  rw [users_lookup_ensureUser] at hu
  by_cases hk : k = uid
  · rw [if_pos hk] at hu
    cases hu
    exact userStrong_userOf h
  · rw [if_neg hk] at hu
    exact h.2 k u hu

theorem configOK_asetUser {c : Config σ} {uid : String} {u1 : UserCfg σ}
    (h : ConfigOK c) (hu : UserOK u1) : ConfigOK ⟨aset c.users uid u1⟩ := by
  constructor
  · exact nodup_keys_aset h.1
  · intro k u hku
    by_cases hk : k = uid
    · subst hk
      rw [alookup_aset_self] at hku
      cases hku
      exact hu
    · rw [alookup_aset_ne hk] at hku
      exact h.2 k u hku

theorem configStrong_asetUser {c : Config σ} {uid : String} {u1 : UserCfg σ}
    (h : ConfigStrong c) (hu : UserOK u1) (hs : UserStrong u1) :
    ConfigStrong ⟨aset c.users uid u1⟩ := by
  refine ⟨configOK_asetUser h.1 hu, ?_⟩
  intro k u hku
  by_cases hk : k = uid
  · subst hk
    rw [alookup_aset_self] at hku
    cases hku
    exact hs
  · rw [alookup_aset_ne hk] at hku
    exact h.2 k u hku

theorem userOK_deactivatedUser {u : UserCfg σ} (h : UserOK u) :
    UserOK (deactivatedUser u) := by
  refine ⟨?_, ?_, ?_⟩
  · show (keys (deactivateAll u.connections)).Nodup
    rw [keys_deactivateAll]; exact h.1
  · intro kc hkc hA
    rw [(mem_deactivateAll hkc).1] at hA
    exact Bool.noConfusion hA
  · intro k hk
    show k ∈ keys (deactivateAll u.connections)
    rw [keys_deactivateAll]
    exact h.2.2 k hk

theorem userStrong_avoid_empty {u : UserCfg σ}
    (h : u.connections = []) : UserStrong u := by
  intro hne
  exact absurd h hne

theorem userOK_activatedUser {u : UserCfg σ} {id : String} {p : ConnParams}
    {schema : σ} {now : String} (nd : (keys u.connections).Nodup) :
    UserOK (activatedUser u id p schema now) := by
  have nd2 : (keys (deactivateAll u.connections)).Nodup := by
    rw [keys_deactivateAll]; exact nd
  refine ⟨?_, ?_, ?_⟩
  · exact nodup_keys_aset nd2
  · intro kc hkc hA
    rcases mem_aset nd2 hkc with h1 | h1
    · rw [h1]; rfl
    · rw [(mem_deactivateAll h1.1).1] at hA
      exact Bool.noConfusion hA
  · intro k hk
    cases hk
    exact mem_keys_aset_self

theorem userStrong_activatedUser {u : UserCfg σ} {id : String} {p : ConnParams}
    {schema : σ} {now : String} : UserStrong (activatedUser u id p schema now) := by
  intro _
  exact ⟨id, mkConn p schema now, rfl, alookup_aset_self, rfl⟩

theorem userOK_flagged {l : List (String × Conn σ)} {key : String}
    (nd : (keys l).Nodup) (hmem : key ∈ keys l) :
    UserOK (⟨some key, setActiveFlag (deactivateAll l) key⟩ : UserCfg σ) := by
  refine ⟨?_, ?_, ?_⟩
  · rw [keys_setActiveFlag, keys_deactivateAll]; exact nd
  · intro kc hkc hA
    rcases mem_setActiveFlag hkc with h1 | h1
    · rw [h1.1]
    · rw [(mem_deactivateAll h1.1).1] at hA
      exact Bool.noConfusion hA
  · intro k hk
    cases hk
    rw [keys_setActiveFlag, keys_deactivateAll]
    exact hmem

theorem userStrong_flagged {l : List (String × Conn σ)} {key : String}
    (hmem : key ∈ keys l) :
    UserStrong (⟨some key, setActiveFlag (deactivateAll l) key⟩ : UserCfg σ) := by
  intro _
  obtain ⟨r, hr⟩ := mem_keys_iff_alookup.mp hmem
  refine ⟨key, { { r with isActive := false } with isActive := true }, rfl, ?_, rfl⟩
  rw [alookup_setActiveFlag_self, alookup_deactivateAll, hr]
  rfl

theorem userOK_promoted {u : UserCfg σ} {cid r0 : String} {rest0 : List String}
    (hok : UserOK u) (hcur : u.currentConnection = some cid)
    (hkeys : keys (aerase u.connections cid) = r0 :: rest0) :
    UserOK (⟨some r0, setActiveFlag (aerase u.connections cid) r0⟩ : UserCfg σ) := by
  refine ⟨?_, ?_, ?_⟩
  · rw [keys_setActiveFlag]
    exact nodup_keys_aerase hok.1
  · intro kc hkc hA
    rcases mem_setActiveFlag hkc with h1 | h1
    · rw [h1.1]
    · obtain ⟨h2, h3⟩ := mem_aerase.mp h1.1
      have := hok.2.1 kc h2 hA
      rw [hcur] at this
      exact absurd (Option.some_inj.mp this.symm) h3
  · intro k hk
    cases hk
    rw [keys_setActiveFlag, hkeys]
    exact List.mem_cons_self _ _

theorem userStrong_promoted {u : UserCfg σ} {cid r0 : String} {rest0 : List String}
    (hkeys : keys (aerase u.connections cid) = r0 :: rest0) :
    UserStrong (⟨some r0, setActiveFlag (aerase u.connections cid) r0⟩ : UserCfg σ) := by
  intro _
  obtain ⟨r, hr⟩ := alookup_head_of_keys hkeys
  refine ⟨r0, { r with isActive := true }, rfl, ?_, rfl⟩
  rw [alookup_setActiveFlag_self, hr]
  rfl

theorem userOK_removed_noncurrent {u : UserCfg σ} {cid : String}
    (hok : UserOK u) (hne : u.currentConnection ≠ some cid) :
    UserOK { u with connections := aerase u.connections cid } := by
  refine ⟨nodup_keys_aerase hok.1, ?_, ?_⟩
  · intro kc hkc hA
    exact hok.2.1 kc (mem_aerase.mp hkc).1 hA
  · intro k hk
    have h1 := hok.2.2 k hk
    have h2 : k ≠ cid := by
      intro he
      subst he
      exact hne hk
    exact mem_keys_aerase h1 h2

theorem userStrong_removed_noncurrent {u : UserCfg σ} {cid : String}
    (hs : UserStrong u) (hne : u.currentConnection ≠ some cid) :
    UserStrong { u with connections := aerase u.connections cid } := by
  intro hne2
  have hne0 : u.connections ≠ [] := by
    intro he
    rw [show u.connections = [] from he] at hne2
    exact hne2 rfl
  obtain ⟨k, r, hcur, hlook, hA⟩ := hs hne0
  have hk : k ≠ cid := by
    intro he
    subst he
    exact hne hcur
  exact ⟨k, r, hcur, by rw [alookup_aerase_ne hk]; exact hlook, hA⟩

theorem userOK_removedUser {u : UserCfg σ} {cid : String} (hok : UserOK u) :
    UserOK (removedUser u cid) := by
  unfold removedUser
  by_cases hc : u.currentConnection = some cid
  · rw [if_pos hc]
    cases hkeys : keys (aerase u.connections cid) with
    | nil =>
      refine ⟨?_, ?_, ?_⟩
      · rw [hkeys]; exact List.nodup_nil
      · intro kc hkc hA
        rw [keys_eq_nil hkeys] at hkc
        simp at hkc
      · intro k hk
        exact Option.noConfusion hk
    | cons r0 rest0 => exact userOK_promoted hok hc hkeys
  · rw [if_neg hc]
    exact userOK_removed_noncurrent hok hc

theorem userStrong_removedUser {u : UserCfg σ} {cid : String}
    (hok : UserOK u) (hs : UserStrong u) : UserStrong (removedUser u cid) := by
  unfold removedUser
  by_cases hc : u.currentConnection = some cid
  · rw [if_pos hc]
    cases hkeys : keys (aerase u.connections cid) with
    | nil => exact userStrong_avoid_empty (keys_eq_nil hkeys)
    | cons r0 rest0 => exact userStrong_promoted hkeys
  · rw [if_neg hc]
    exact userStrong_removed_noncurrent hs hc

end Preservation

/-! ## Preservation across whole calls and call sequences -/

section Sequences

variable {σ : Type}

/-- A call is a "refresh failure" when it is an `add_connection` that
passes the connection test, matches an existing connection, and then
fails schema extraction: the one shape of call that leaves every
connection of the user deactivated. -/
def isRefreshFail (c : Config σ) : Op σ → Bool
  | .add userId _ p testOk schemaRes _ =>
    testOk && schemaRes.isNone &&
      (findExisting (userOf (ensureUser c userId) userId) p).isSome
  | _ => false

/-- No call of the sequence, run from `c`, is a refresh failure. -/
def cleanRun : Config σ → List (Op σ) → Bool
  | _, [] => true
  | c, op :: ops => !(isRefreshFail c op) && cleanRun (applyOp c op) ops

theorem configOK_addConnection {c : Config σ}
    {userId connectionId : String} {p : ConnParams} {testOk : Bool}
    {schemaRes : Option σ} {now : String} (h : ConfigOK c) :
    ConfigOK (addConnection c userId connectionId p testOk schemaRes now).1 := by
  have h1 : ConfigOK (ensureUser c userId) := configOK_ensureUser h
  have hu : UserOK (userOf (ensureUser c userId) userId) := userOK_userOf h1
  unfold addConnection
  split
  · exact h
  · split
    · exact configOK_asetUser h1 (userOK_deactivatedUser hu)
    · exact configOK_asetUser h1 (userOK_activatedUser hu.1)
    · exact h1
    · exact configOK_asetUser h1 (userOK_activatedUser hu.1)

theorem configOK_setActiveConnection {c : Config σ} {userId connectionId : String}
    (h : ConfigOK c) : ConfigOK (setActiveConnection c userId connectionId).1 := by
  unfold setActiveConnection
  split
  · exact h
  · next u hu =>
    split
    · next hm =>
      exact configOK_asetUser h (userOK_flagged (h.2 userId u hu).1 hm)
    · exact h

theorem configOK_removeConnection {c : Config σ} {userId connectionId : String}
    (h : ConfigOK c) : ConfigOK (removeConnection c userId connectionId).1 := by
  unfold removeConnection
  split
  · exact h
  · next u hu =>
    split
    · exact configOK_asetUser h (userOK_removedUser (h.2 userId u hu))
    · exact h

theorem configOK_applyOp {c : Config σ} {op : Op σ} (h : ConfigOK c) :
    ConfigOK (applyOp c op) := by
  cases op with
  | add userId connectionId p testOk schemaRes now =>
    exact configOK_addConnection h
  | setActive userId connectionId => exact configOK_setActiveConnection h
  | remove userId connectionId => exact configOK_removeConnection h

theorem configOK_applyOps {c : Config σ} {ops : List (Op σ)} (h : ConfigOK c) :
    ConfigOK (applyOps c ops) := by
  induction ops generalizing c with
  | nil => exact h
  | cons op ops ih => exact ih (configOK_applyOp h)

theorem configStrong_addConnection {c : Config σ}
    {userId connectionId : String} {p : ConnParams} {testOk : Bool}
    {schemaRes : Option σ} {now : String} (h : ConfigStrong c)
    (hnf : isRefreshFail c (.add userId connectionId p testOk schemaRes now) = false) :
    ConfigStrong (addConnection c userId connectionId p testOk schemaRes now).1 := by
  have h1 : ConfigStrong (ensureUser c userId) := configStrong_ensureUser h
  have hu : UserOK (userOf (ensureUser c userId) userId) := userOK_userOf h1.1
  unfold addConnection
  split
  · exact h
  · next ht =>
    have htT : testOk = true := by
      cases testOk
      · exact absurd rfl ht
      · rfl
    split
    · next existingId hf =>
      exfalso
      rw [isRefreshFail, htT, hf] at hnf
      simp at hnf
    · exact configStrong_asetUser h1 (userOK_activatedUser hu.1) userStrong_activatedUser
    · exact h1
    · exact configStrong_asetUser h1 (userOK_activatedUser hu.1) userStrong_activatedUser

theorem configStrong_setActiveConnection {c : Config σ}
    {userId connectionId : String} (h : ConfigStrong c) :
    ConfigStrong (setActiveConnection c userId connectionId).1 := by
  unfold setActiveConnection
  split
  · exact h
  · next u hu =>
    split
    · next hm =>
      exact configStrong_asetUser h
        (userOK_flagged (h.1.2 userId u hu).1 hm) (userStrong_flagged hm)
    · exact h

theorem configStrong_removeConnection {c : Config σ}
    {userId connectionId : String} (h : ConfigStrong c) :
    ConfigStrong (removeConnection c userId connectionId).1 := by
  unfold removeConnection
  split
  · exact h
  · next u hu =>
    split
    · exact configStrong_asetUser h (userOK_removedUser (h.1.2 userId u hu))
        (userStrong_removedUser (h.1.2 userId u hu) (h.2 userId u hu))
    · exact h

theorem configStrong_applyOp {c : Config σ} {op : Op σ} (h : ConfigStrong c)
    (hnf : isRefreshFail c op = false) : ConfigStrong (applyOp c op) := by
  cases op with
  | add userId connectionId p testOk schemaRes now =>
    exact configStrong_addConnection h hnf
  | setActive userId connectionId => exact configStrong_setActiveConnection h
  | remove userId connectionId => exact configStrong_removeConnection h

theorem configStrong_applyOps {c : Config σ} {ops : List (Op σ)}
    (h : ConfigStrong c) (hcl : cleanRun c ops = true) :
    ConfigStrong (applyOps c ops) := by
  induction ops generalizing c with
  | nil => exact h
  | cons op ops ih =>
    rw [cleanRun, Bool.and_eq_true, Bool.not_eq_true'] at hcl
    exact ih (configStrong_applyOp h hcl.1) hcl.2

theorem configOK_init : ConfigOK (initConfig : Config σ) := by
  refine ⟨List.nodup_nil, ?_⟩
  intro uid u hu
  exact Option.noConfusion hu

theorem configStrong_init : ConfigStrong (initConfig : Config σ) := by
  refine ⟨configOK_init, ?_⟩
  intro uid u hu
  exact Option.noConfusion hu

end Sequences

/-! ## C2: the active-connection invariant -/

/-- A credential set used by the concrete call sequences below. -/
def demoParams : ConnParams := ⟨"localhost", 5432, "appdb", "admin", "pw"⟩

/-- First connect succeeds; re-connect with the same credentials passes the
test but fails schema extraction. -/
def c2FailedRun : List (Op Nat) :=
  [.add "u1" "c1" demoParams true (some 0) "t1",
   .add "u1" "c2" demoParams true none "t2"]

/-- The user section this sequence leaves behind: one stored connection,
none of them active. -/
def c2BrokenUser : UserCfg Nat :=
  ⟨some "c1",
   [("c1", ⟨"localhost", 5432, "appdb", "admin", "pw", "postgresql",
     false, some 0, some "t1"⟩)]⟩

/-- C2 (counterexample): after the two `addConnection` calls of
`c2FailedRun` (connect, then re-connect whose schema extraction fails
after its connection test succeeded), user `u1` still has one stored
connection but ZERO active ones — the re-connect deactivated every
connection before extraction — refuting "if the user still has at least
one connection, then exactly one of them is active". -/
theorem c2_active_invariant_counterexample :
    alookup (applyOps initConfig c2FailedRun).users "u1" = some c2BrokenUser ∧
    c2BrokenUser.connections.length = 1 ∧ countActive c2BrokenUser = 0 := by
  decide

/-- C2 (amended): after any sequence of `addConnection`, `setActive` and
`remove` calls, at most one connection per user has `active=true`; and
when additionally no `addConnection` call of the sequence failed schema
extraction while refreshing an existing matching connection, every user
with at least one connection has exactly one active connection. -/
theorem c2_active_invariant_amended {σ : Type} (ops : List (Op σ)) :
    (∀ uid u, alookup (applyOps initConfig ops).users uid = some u →
      countActive u ≤ 1) ∧
    (cleanRun initConfig ops = true →
      ∀ uid u, alookup (applyOps initConfig ops).users uid = some u →
        u.connections ≠ [] → countActive u = 1) := by
  constructor
  · intro uid u hu
    exact countActive_le_one ((configOK_applyOps configOK_init).2 uid u hu)
  · intro hcl uid u hu hne
    have hst := configStrong_applyOps configStrong_init hcl
    exact countActive_eq_one (hst.1.2 uid u hu) (hst.2 uid u hu) hne

/-- A clean two-call sequence: connect twice with the same credentials,
both times successfully. -/
def c2CleanRun : List (Op Nat) :=
  [.add "u1" "c1" demoParams true (some 0) "t1",
   .add "u1" "c2" demoParams true (some 1) "t2"]

/-- The user section the clean sequence produces. -/
def c2CleanUser : UserCfg Nat :=
  ⟨some "c1",
   [("c1", ⟨"localhost", 5432, "appdb", "admin", "pw", "postgresql",
     true, some 1, some "t2"⟩)]⟩

/-- C2 (witness): the amended invariant applied to the concrete clean
sequence `c2CleanRun`, yielding exactly one active connection. -/
theorem c2_active_invariant_witness : countActive c2CleanUser = 1 :=
  (c2_active_invariant_amended c2CleanRun).2 (by decide) "u1" c2CleanUser
    (by decide) (by decide)

/-! ## Further helper lemmas for C4, C7, C8 -/

section MoreLemmas

variable {σ : Type}

theorem alookup_setActiveFlag_ne {l : List (String × Conn σ)} {key k : String}
    (h : k ≠ key) : alookup (setActiveFlag l key) k = alookup l k := by
  induction l with
  | nil => simp [setActiveFlag, alookup]
  | cons kv rest ih =>
    obtain ⟨k0, v0⟩ := kv
    by_cases hk : k0 = key
    · subst hk
      rw [setActiveFlag_cons_eq rfl, alookup_cons_ne (Ne.symm h),
        alookup_cons_ne (Ne.symm h), ih]
    · by_cases hk2 : k0 = k
      · subst hk2
        rw [setActiveFlag_cons_ne hk, alookup_cons_eq rfl, alookup_cons_eq rfl]
      · rw [setActiveFlag_cons_ne hk, alookup_cons_ne hk2, alookup_cons_ne hk2, ih]

theorem find?_unique {α : Type} {p : α → Bool} {l : List α} {x : α}
    (hx : x ∈ l) (hpx : p x = true) (huniq : ∀ y ∈ l, p y = true → y = x) :
    l.find? p = some x := by
  induction l with
  | nil => simp at hx
  | cons a rest ih =>
    by_cases hpa : p a = true
    · have ha : a = x := huniq a (List.mem_cons_self _ _) hpa
      subst ha
      rw [List.find?_cons_of_pos _ hpa]
    · rw [List.find?_cons_of_neg _ (by simp [hpa])]
      rcases List.mem_cons.mp hx with he | hm
      · subst he; exact absurd hpx hpa
      · exact ih hm (fun y hy hpy => huniq y (List.mem_cons_of_mem _ hy) hpy)

theorem matchesParams_deactivate {r : Conn σ} {p : ConnParams} :
    matchesParams { r with isActive := false } p = matchesParams r p := rfl

theorem matchesParams_activate {r : Conn σ} {p : ConnParams} :
    matchesParams { r with isActive := true } p = matchesParams r p := rfl

theorem matchesParams_mkConn {p : ConnParams} {schema : σ} {now : String} :
    matchesParams (mkConn p schema now) p = true := by
  simp [matchesParams, mkConn]

theorem userOf_aset_self {l : List (String × UserCfg σ)} {uid : String}
    {u1 : UserCfg σ} : userOf (⟨aset l uid u1⟩ : Config σ) uid = u1 := by
  unfold userOf
  rw [show alookup (aset l uid u1) uid = some u1 from alookup_aset_self]
  rfl

theorem ensureUser_eq_of_mem {c : Config σ} {uid : String}
    (h : uid ∈ keys c.users) : ensureUser c uid = c := by
  unfold ensureUser
  rw [if_pos h]

end MoreLemmas

/-! ## C4: the credential-dedup invariant -/

/-- C4: starting from any store in which user `userId` has no connection
matching the dedup key of `p` (and well-formed connection ids), two
successful `addConnection` calls with the same `(host, port, database,
username)` leave exactly one stored record for that key: the second call
returns `isExisting=true` with the first call's id `id1`, the record at
`id1` holds the second call's schema and timestamp and is active, and the
user's connection count does not grow. -/
theorem c4_dedup_invariant {σ : Type} (c : Config σ) (userId id1 id2 : String)
    (p : ConnParams) (s1 s2 : σ) (t1 t2 : String)
    (hnodup : (keys (userOf c userId).connections).Nodup)
    (hnokey : ∀ kc ∈ (userOf c userId).connections, matchesParams kc.2 p = false) :
    (addConnection (addConnection c userId id1 p true (some s1) t1).1
        userId id2 p true (some s2) t2).2.1 = AddResult.refreshed s2 id1 ∧
    alookup (userOf (addConnection (addConnection c userId id1 p true (some s1) t1).1
        userId id2 p true (some s2) t2).1 userId).connections id1 =
      some (mkConn p s2 t2) ∧
    (∀ kc ∈ (userOf (addConnection (addConnection c userId id1 p true (some s1) t1).1
        userId id2 p true (some s2) t2).1 userId).connections,
      matchesParams kc.2 p = true → kc = (id1, mkConn p s2 t2)) ∧
    (userOf (addConnection (addConnection c userId id1 p true (some s1) t1).1
        userId id2 p true (some s2) t2).1 userId).connections.length =
      (userOf (addConnection c userId id1 p true (some s1) t1).1
        userId).connections.length := by
  have hfind1 : findExisting (userOf (ensureUser c userId) userId) p = none := by
    rw [userOf_ensureUser]
    unfold findExisting
    rw [List.find?_eq_none.mpr]
    · rfl
    · intro kc hkc
      simp [hnokey kc hkc]
  have h1 : addConnection c userId id1 p true (some s1) t1 =
      (⟨aset (ensureUser c userId).users userId
          (activatedUser (userOf c userId) id1 p s1 t1)⟩, .added s1, true) := by
    unfold addConnection
    rw [if_neg (by decide : ¬(true = false))]
    simp only [hfind1]
    rw [userOf_ensureUser]
  have hu1 : userOf (addConnection c userId id1 p true (some s1) t1).1 userId =
      activatedUser (userOf c userId) id1 p s1 t1 := by
    rw [h1]
    exact userOf_aset_self
  have hmem1 : userId ∈ keys (addConnection c userId id1 p true (some s1) t1).1.users := by
    rw [h1]
    exact mem_keys_aset_self
  have nd2 : (keys (deactivateAll (userOf c userId).connections)).Nodup := by
    rw [keys_deactivateAll]; exact hnodup
  have huniq1 : ∀ y ∈ (activatedUser (userOf c userId) id1 p s1 t1).connections,
      matchesParams y.2 p = true → y = (id1, mkConn p s1 t1) := by
    intro y hy hpy
    rcases mem_aset nd2 hy with h | ⟨hy2, hne⟩
    · exact h
    · exfalso
      obtain ⟨-, r, hr, hy3⟩ := mem_deactivateAll hy2
      rw [hy3, matchesParams_deactivate] at hpy
      exact absurd hpy (by simp [hnokey (y.1, r) hr])
  have hfind2 : findExisting (activatedUser (userOf c userId) id1 p s1 t1) p =
      some id1 := by
    show Option.map Prod.fst
        (List.find? (fun kc => matchesParams kc.2 p)
          (aset (deactivateAll (userOf c userId).connections) id1 (mkConn p s1 t1))) =
      some id1
    rw [find?_unique (alookup_mem (alookup_aset_self)) matchesParams_mkConn huniq1]
    rfl
  have hmem1' : userId ∈ keys
      ((⟨aset (ensureUser c userId).users userId
          (activatedUser (userOf c userId) id1 p s1 t1)⟩ : Config σ)).users :=
    mem_keys_aset_self
  have h2 : addConnection (addConnection c userId id1 p true (some s1) t1).1
      userId id2 p true (some s2) t2 =
      (⟨aset (aset (ensureUser c userId).users userId
            (activatedUser (userOf c userId) id1 p s1 t1)) userId
          (activatedUser (activatedUser (userOf c userId) id1 p s1 t1) id1 p s2 t2)⟩,
       .refreshed s2 id1, true) := by
    rw [h1]
    show addConnection (⟨aset (ensureUser c userId).users userId
        (activatedUser (userOf c userId) id1 p s1 t1)⟩ : Config σ)
      userId id2 p true (some s2) t2 = _
    unfold addConnection
    rw [if_neg (by decide : ¬(true = false)), ensureUser_eq_of_mem hmem1',
      userOf_aset_self]
    simp only [hfind2]
  have hu2 : userOf (addConnection (addConnection c userId id1 p true (some s1) t1).1
      userId id2 p true (some s2) t2).1 userId =
      activatedUser (activatedUser (userOf c userId) id1 p s1 t1) id1 p s2 t2 := by
    rw [h2]
    exact userOf_aset_self
  have nd3 : (keys (deactivateAll
      (activatedUser (userOf c userId) id1 p s1 t1).connections)).Nodup := by
    rw [keys_deactivateAll]
    exact nodup_keys_aset nd2
  refine ⟨by rw [h2], ?_, ?_, ?_⟩
  · rw [hu2]
    exact alookup_aset_self
  · rw [hu2]
    intro kc hkc hp
    rcases mem_aset nd3 hkc with h | ⟨hk2, hne⟩
    · exact h
    · exfalso
      obtain ⟨-, r1, hr1, hk3⟩ := mem_deactivateAll hk2
      rcases mem_aset nd2 hr1 with he | ⟨hr0, -⟩
      · exact hne (congrArg Prod.fst he)
      · obtain ⟨-, r0, hr00, hr01⟩ := mem_deactivateAll hr0
        have hr00' : (kc.1, r0) ∈ (userOf c userId).connections := hr00
        have hr01' : r1 = { r0 with isActive := false } := hr01
        rw [hk3, matchesParams_deactivate, hr01', matchesParams_deactivate] at hp
        exact absurd hp (by simp [hnokey (kc.1, r0) hr00'])
  · rw [hu2, hu1]
    show (aset (deactivateAll (activatedUser (userOf c userId) id1 p s1 t1).connections)
        id1 (mkConn p s2 t2)).length = _
    rw [length_aset_mem (by rw [keys_deactivateAll]; exact mem_keys_aset_self),
      length_deactivateAll]

/-- C4 (witness): the dedup invariant applied to two concrete connects
into the empty store. -/
theorem c4_dedup_invariant_witness :
    (addConnection (addConnection (initConfig : Config Nat) "u1" "c1" demoParams
        true (some 0) "t1").1 "u1" "c2" demoParams true (some 1) "t2").2.1 =
      AddResult.refreshed 1 "c1" :=
  (c4_dedup_invariant initConfig "u1" "c1" "c2" demoParams 0 1 "t1" "t2"
    (by decide) (by decide)).1

/-! ## C7: remove semantics -/

/-- C7: `remove_connection(userId, id)` returns false and leaves the store
unchanged when `id` is not among that user's connections; otherwise it
deletes the record and returns true, and — assuming the store's coherence
(every active connection is the `currentConnection`, which the store
maintains) — when the deleted connection was active and at least one
connection remains, some remaining connection is active afterwards. -/
theorem c7_remove_semantics {σ : Type} (c : Config σ) (userId connectionId : String)
    (hcoh : ∀ kc ∈ (userOf c userId).connections, kc.2.isActive = true →
      (userOf c userId).currentConnection = some kc.1) :
    (connOf c userId connectionId = none →
      removeConnection c userId connectionId = (c, false)) ∧
    (∀ r, connOf c userId connectionId = some r →
      (removeConnection c userId connectionId).2 = true ∧
      connOf (removeConnection c userId connectionId).1 userId connectionId = none ∧
      (r.isActive = true →
        (userOf (removeConnection c userId connectionId).1 userId).connections ≠ [] →
        ∃ k rc, alookup (userOf (removeConnection c userId connectionId).1
            userId).connections k = some rc ∧ rc.isActive = true)) := by
  cases hu : alookup c.users userId with
  | none =>
    constructor
    · intro _
      unfold removeConnection
      rw [hu]
    · intro r hr
      unfold connOf at hr
      rw [hu] at hr
      exact Option.noConfusion hr
  | some u =>
    have huser : userOf c userId = u := by
      unfold userOf
      rw [hu]
      rfl
    rw [huser] at hcoh
    by_cases hm : connectionId ∈ keys u.connections
    · have hR : removeConnection c userId connectionId =
          (⟨aset c.users userId (removedUser u connectionId)⟩, true) := by
        unfold removeConnection
        rw [hu]
        exact if_pos hm
      have hconn : connOf c userId connectionId = alookup u.connections connectionId := by
        unfold connOf
        rw [hu]
        rfl
      constructor
      · intro hnone
        rw [hconn] at hnone
        exact absurd hm (by simpa using alookup_eq_none_iff.mp hnone)
      · intro r hr
        rw [hconn] at hr
        refine ⟨by rw [hR], ?_, ?_⟩
        · rw [hR]
          show (alookup (aset c.users userId (removedUser u connectionId))
              userId).bind (fun u1 => alookup u1.connections connectionId) = none
          rw [show alookup (aset c.users userId (removedUser u connectionId)) userId =
              some (removedUser u connectionId) from alookup_aset_self]
          show alookup (removedUser u connectionId).connections connectionId = none
          unfold removedUser
          by_cases hc : u.currentConnection = some connectionId
          · rw [if_pos hc]
            cases hkeys : keys (aerase u.connections connectionId) with
            | nil => exact alookup_aerase_self
            | cons r0 rest0 =>
              have hr0 : r0 ∈ keys (aerase u.connections connectionId) := by
                rw [hkeys]
                exact List.mem_cons_self _ _
              show alookup (setActiveFlag (aerase u.connections connectionId) r0)
                connectionId = none
              rw [alookup_setActiveFlag_ne (Ne.symm (keys_aerase_subset hr0).2)]
              exact alookup_aerase_self
          · rw [if_neg hc]
            exact alookup_aerase_self
        · intro hA hne
          have hcur : u.currentConnection = some connectionId :=
            hcoh (connectionId, r) (alookup_mem hr) hA
          rw [hR] at hne ⊢
          rw [show userOf (⟨aset c.users userId (removedUser u connectionId)⟩ :
              Config σ) userId = removedUser u connectionId from userOf_aset_self] at hne ⊢
          unfold removedUser at hne ⊢
          rw [if_pos hcur] at hne ⊢
          cases hkeys : keys (aerase u.connections connectionId) with
          | nil =>
            rw [hkeys] at hne
            exact absurd (keys_eq_nil hkeys) hne
          | cons r0 rest0 =>
            obtain ⟨v, hv⟩ := alookup_head_of_keys hkeys
            refine ⟨r0, { v with isActive := true }, ?_, rfl⟩
            show alookup (setActiveFlag (aerase u.connections connectionId) r0) r0 =
              some { v with isActive := true }
            rw [alookup_setActiveFlag_self, hv]
            rfl
    · have hconn : connOf c userId connectionId = none := by
        unfold connOf
        rw [hu]
        exact alookup_eq_none_iff.mpr hm
      constructor
      · intro _
        unfold removeConnection
        rw [hu]
        exact if_neg hm
      · intro r hr
        rw [hconn] at hr
        exact Option.noConfusion hr

/-- The store used by the C7 witness: user `u1` has an active current
connection `a` and an inactive sibling `b`. -/
def c7Store : Config Nat :=
  ⟨[("u1", ⟨some "a",
    [("a", ⟨"localhost", 5432, "appdb", "admin", "pw", "postgresql",
      true, some 0, some "t0"⟩),
     ("b", ⟨"otherhost", 5433, "otherdb", "root", "pw2", "postgresql",
      false, some 1, some "t1"⟩)]⟩)]⟩

/-- C7 (witness): removing the active connection `a` succeeds, deletes the
record, and promotes a remaining connection to active. -/
theorem c7_remove_semantics_witness :
    (removeConnection c7Store "u1" "a").2 = true ∧
    connOf (removeConnection c7Store "u1" "a").1 "u1" "a" = none ∧
    ∃ k rc, alookup (userOf (removeConnection c7Store "u1" "a").1
        "u1").connections k = some rc ∧ rc.isActive = true := by
  have h := (c7_remove_semantics c7Store "u1" "a" (by decide)).2
    ⟨"localhost", 5432, "appdb", "admin", "pw", "postgresql",
      true, some 0, some "t0"⟩ (by decide)
  exact ⟨h.1, h.2.1, h.2.2 (by decide) (by decide)⟩

/-! ## C8: schema-extraction failure during addConnection -/

/-- C8 (amended): when schema extraction fails after a successful
connection test, `add_connection` raises (modelled as the `schemaExn`
outcome) without saving: nothing is persisted, no connection record is
created, updated or removed (every record is unchanged up to its active
flag, for every user), and when the credentials match no existing
connection the store is exactly `ensureUser c userId` (flags untouched).
In the refresh-existing path, however, the user's connections have
already been deactivated in the in-memory store before extraction. -/
theorem c8_schema_failure_amended {σ : Type} (c : Config σ)
    (userId connectionId : String) (p : ConnParams) (now : String) :
    (addConnection c userId connectionId p true none now).2.1 = AddResult.schemaExn ∧
    (addConnection c userId connectionId p true none now).2.2 = false ∧
    (∀ uid cid,
      (connOf (addConnection c userId connectionId p true none now).1 uid cid).map
          (fun rc => { rc with isActive := false }) =
        (connOf (ensureUser c userId) uid cid).map
          (fun rc => { rc with isActive := false })) ∧
    (findExisting (userOf (ensureUser c userId) userId) p = none →
      (addConnection c userId connectionId p true none now).1 = ensureUser c userId) := by
  unfold addConnection
  rw [if_neg (by decide : ¬(true = false))]
  cases hf : findExisting (userOf (ensureUser c userId) userId) p with
  | none =>
    exact ⟨rfl, rfl, fun uid cid => rfl, fun _ => rfl⟩
  | some existingId =>
    refine ⟨rfl, rfl, ?_, ?_⟩
    · intro uid cid
      by_cases huid : uid = userId
      · subst huid
        show (((alookup (aset (ensureUser c uid).users uid
              (deactivatedUser (userOf (ensureUser c uid) uid))) uid).bind
            (fun u1 => alookup u1.connections cid)).map
              (fun rc => { rc with isActive := false })) =
          (((alookup (ensureUser c uid).users uid).bind
            (fun u1 => alookup u1.connections cid)).map
              (fun rc => { rc with isActive := false }))
        rw [show alookup (aset (ensureUser c uid).users uid
            (deactivatedUser (userOf (ensureUser c uid) uid))) uid =
          some (deactivatedUser (userOf (ensureUser c uid) uid)) from alookup_aset_self]
        rw [users_lookup_ensureUser, if_pos rfl, userOf_ensureUser]
        show ((alookup (deactivateAll (userOf c uid).connections) cid).map
            (fun rc => { rc with isActive := false })) =
          ((alookup (userOf c uid).connections cid).map
            (fun rc => { rc with isActive := false }))
        rw [alookup_deactivateAll]
        cases alookup (userOf c uid).connections cid <;> rfl
      · show (((alookup (aset (ensureUser c userId).users userId
              (deactivatedUser (userOf (ensureUser c userId) userId))) uid).bind
            (fun u1 => alookup u1.connections cid)).map
              (fun rc => { rc with isActive := false })) = _
        rw [alookup_aset_ne huid]
        rfl
    · intro hnone
      exact Option.noConfusion hnone

/-- The store used by the C8 counterexample and witness: user `u1` has an
inactive connection `a` whose credentials are `demoParams`, and an ACTIVE
sibling `b` with different credentials (the current one). -/
def c8Store : Config Nat :=
  ⟨[("u1", ⟨some "b",
    [("a", ⟨"localhost", 5432, "appdb", "admin", "pw", "postgresql",
      false, some 0, some "t0"⟩),
     ("b", ⟨"otherhost", 5433, "otherdb", "root", "pw2", "postgresql",
      true, some 1, some "t1"⟩)]⟩)]⟩

/-- C8 (counterexample): re-connecting with `a`'s credentials while schema
extraction fails (after a successful connection test) flips sibling `b`'s
active flag from true to false in the store — refuting "no sibling
connection's active flag is altered". -/
theorem c8_schema_failure_counterexample :
    connOf c8Store "u1" "b" =
      some ⟨"otherhost", 5433, "otherdb", "root", "pw2", "postgresql",
        true, some 1, some "t1"⟩ ∧
    connOf (addConnection c8Store "u1" "c2" demoParams true none "t2").1 "u1" "b" =
      some ⟨"otherhost", 5433, "otherdb", "root", "pw2", "postgresql",
        false, some 1, some "t1"⟩ := by
  decide

/-- C8 (witness): the amended statement applied to a concrete failing call
whose credentials match no stored connection — the store is left exactly
as `ensureUser` produced it. -/
theorem c8_schema_failure_witness :
    (addConnection c8Store "u1" "c9" ⟨"nowhere", 9999, "db", "user", "pw9"⟩
        true none "t9").1 = ensureUser c8Store "u1" :=
  (c8_schema_failure_amended c8Store "u1" "c9"
    ⟨"nowhere", 9999, "db", "user", "pw9"⟩ "t9").2.2.2 (by decide)

/-! ## Query Executor: result values, null cleaning, chart inference

`QueryExecutor.execute_query` and `QueryExecutor._generate_chart_data`
in src/backend/services/query_executor.py. Result-cell values are
modelled by `Value`; `Value.vfloatOfStr s` stands for the Python float
obtained by `float(s)`.
-/

/-- One cell of a result row: SQL NULL (Python `None`), an integer, a
string, or the float parsed from a string by the chart-data loop. -/
inductive Value where
  | vnull : Value
  | vint (n : Int) : Value
  | vstr (s : String) : Value
  | vfloatOfStr (s : String) : Value
deriving DecidableEq, Repr

/-- `'0' <= c <= '9'`. -/
def isAsciiDigit (c : Char) : Bool := '0' ≤ c && c ≤ '9'

/-- Drop one leading sign character, as `float()` allows. -/
def dropSign : List Char → List Char
  | '+' :: rest => rest
  | '-' :: rest => rest
  | l => l

/-- Split at the first exponent marker `e`/`E`, if any. -/
def splitAtExp : List Char → List Char × Option (List Char)
  | [] => ([], none)
  | c :: rest =>
    if c = 'e' ∨ c = 'E' then ([], some rest)
    else
      ((splitAtExp rest).1.cons c, (splitAtExp rest).2)

/-- Digits with at most one decimal point and at least one digit
somewhere: the mantissa shapes `float()` accepts. -/
def mantissaOk (l : List Char) : Bool :=
  match (l.span isAsciiDigit).2 with
  | [] => !(l.span isAsciiDigit).1.isEmpty
  | '.' :: frac =>
    (!(l.span isAsciiDigit).1.isEmpty || !frac.isEmpty) && frac.all isAsciiDigit
  | _ => false

/-- An optionally signed non-empty digit string: the exponent shapes
`float()` accepts. -/
def exponentOk (l : List Char) : Bool :=
  !(dropSign l).isEmpty && (dropSign l).all isAsciiDigit

/-- Whether Python's `float(s)` succeeds: optional surrounding whitespace
and sign, then `inf`/`infinity`/`nan` (any case) or a decimal mantissa
with an optional exponent (digit-group underscores are not modelled). -/
def pyFloatOk (s : String) : Bool :=
  if (dropSign (pyStrip s.data)).map toLowerAscii = "inf".data ∨
      (dropSign (pyStrip s.data)).map toLowerAscii = "infinity".data ∨
      (dropSign (pyStrip s.data)).map toLowerAscii = "nan".data then true
  else
    mantissaOk (splitAtExp (dropSign (pyStrip s.data))).1 &&
      (match (splitAtExp (dropSign (pyStrip s.data))).2 with
       | none => true
       | some e => exponentOk e)

example : pyFloatOk "5" = true := by decide
example : pyFloatOk "3.25e-2" = true := by decide
example : pyFloatOk "Eng" = false := by decide
example : pyFloatOk "2024-01" = false := by decide

/-! ### C5: per-column null normalization (`execute_query` lines 59-70) -/

/-- `"avg" in key.lower() or "average" in key.lower()`. -/
def isAvgColumn (key : String) : Bool :=
  containsSub (lowerData key) "avg".data || containsSub (lowerData key) "average".data

/-- The body of the cleaning loop for one cell: a `None` value in an
avg/average-named column stays `None`, a `None` elsewhere becomes `0`,
anything else passes through. -/
def cleanValue (key : String) (v : Value) : Value :=
  if v = Value.vnull then
    if isAvgColumn key then Value.vnull else Value.vint 0
  else v

/-- The cleaning loop over one row's items. -/
def cleanRow (row : List (String × Value)) : List (String × Value) :=
  row.map (fun kv => (kv.1, cleanValue kv.1 kv.2))

/-- The cleaning loop over all fetched rows. -/
def cleanRows (rows : List (List (String × Value))) : List (List (String × Value)) :=
  rows.map cleanRow

/-- The spec's wording of null normalization, for comparison: a null in a
column whose name suggests an average metric is preserved as null; a null
in any other column is coerced to zero; non-nulls are untouched. -/
def specNormalizeCell (key : String) (v : Value) : Value :=
  if v = Value.vnull ∧ isAvgColumn key = false then Value.vint 0 else v

/-- C5: null normalization is applied per column independently — the
cleaning loop equals the per-cell map of the spec's normalizer over every
row list — and in particular a row `{avg_salary: null, employee_count:
null}` becomes `{avg_salary: null, employee_count: 0}`. -/
theorem c5_null_normalization :
    (∀ rows, cleanRows rows =
      rows.map (fun row => row.map (fun kv => (kv.1, specNormalizeCell kv.1 kv.2)))) ∧
    cleanRows [[("avg_salary", Value.vnull), ("employee_count", Value.vnull)]] =
      [[("avg_salary", Value.vnull), ("employee_count", Value.vint 0)]] := by
  have hcell : ∀ k v, cleanValue k v = specNormalizeCell k v := by
    intro k v
    unfold cleanValue specNormalizeCell
    by_cases hv : v = Value.vnull
    · cases ha : isAvgColumn k <;> simp [hv, ha]
    · simp [hv]
  refine ⟨?_, by decide⟩
  intro rows
  unfold cleanRows cleanRow
  simp [hcell]

/-! ### C6: chart-shape inference (`_generate_chart_data` lines 84-136) -/

/-- `is_number`: ints and floats are numeric; a string is numeric when
`float(s)` succeeds; `None` is not. -/
def isNumberV : Value → Bool
  | Value.vint _ => true
  | Value.vfloatOfStr _ => true
  | Value.vstr s => pyFloatOk s
  | Value.vnull => false

/-- `isinstance(v, str)`. -/
def isStrV : Value → Bool
  | Value.vstr _ => true
  | _ => false

/-- `_is_date_like` delegated to `dateutil`/`datetime`, which the source
imports; it is passed in as an oracle on the string value. -/
def isDateLikeV (dl : String → Bool) : Value → Bool
  | Value.vstr s => dl s
  | _ => false

/-- `float(value)` in the chart-data loop: parse when possible, keep the
string otherwise (`try/except`). -/
def pyFloatCast : Value → Value
  | Value.vstr s => if pyFloatOk s then Value.vfloatOfStr s else Value.vstr s
  | v => v

/-- `rows[0].get(c)` (missing key gives `None`). -/
def rowGet (row : List (String × Value)) (c : String) : Value :=
  (alookup row c).getD Value.vnull

/-- `numeric_cols`. -/
def numericColsOf (r0 : List (String × Value)) (cols : List String) : List String :=
  cols.filter (fun col => isNumberV (rowGet r0 col))

/-- `text_cols`. -/
def textColsOf (r0 : List (String × Value)) (cols : List String) : List String :=
  cols.filter (fun col => isStrV (rowGet r0 col) && !isNumberV (rowGet r0 col))

/-- `date_cols`. -/
def dateColsOf (dl : String → Bool) (r0 : List (String × Value))
    (cols : List String) : List String :=
  cols.filter (fun col => isStrV (rowGet r0 col) && isDateLikeV dl (rowGet r0 col))

/-- The `chart_type`/`x_axis`/`y_axis` decision chain of
`_generate_chart_data`: line when date and numeric columns exist; else bar
when text and numeric columns exist; else the `len(rows) <= 10` pie branch
(unreachable, because its condition implies the previous one); else the
positional default. -/
def chartTypeAxes (rowCount : Nat) (dateCols textCols numericCols : List String)
    (x0 y0 : String) : String × String × String :=
  match dateCols, numericCols with
  | d0 :: _, n0 :: _ => ("line", d0, n0)
  | _, _ =>
    match textCols, numericCols with
    | t0 :: _, n0 :: _ => ("bar", t0, n0)
    | _, _ =>
      if rowCount ≤ 10 then
        match textCols, numericCols with
        | t0 :: _, n0 :: _ => ("pie", t0, n0)
        | _, _ => ("bar", x0, y0)
      else ("bar", x0, y0)

/-- The `chart_data` loop: numeric-column string values are parsed to
floats, everything else is kept. -/
def chartDataRows (r0 : List (String × Value)) (cols : List String)
    (rows : List (List (String × Value))) : List (List (String × Value)) :=
  rows.map (fun row => row.map (fun kv =>
    if (numericColsOf r0 cols).contains kv.1 && isStrV kv.2
    then (kv.1, pyFloatCast kv.2) else kv))

/-- The chart hint `_generate_chart_data` returns. -/
structure ChartRes where
  type : String
  data : List (List (String × Value))
  xAxis : String
  yAxis : String
deriving DecidableEq, Repr

/-- `QueryExecutor._generate_chart_data`, parametrised by the date-parsing
oracle `dl`. -/
def generateChartData (dl : String → Bool) (rows : List (List (String × Value)))
    (columns : List String) : ChartRes :=
  match rows, columns with
  | [], _ => ⟨"bar", [], "", ""⟩
  | _ :: _, [] => ⟨"bar", [], "", ""⟩
  | r0 :: rrest, c0 :: crest =>
    match chartTypeAxes (r0 :: rrest).length (dateColsOf dl r0 (c0 :: crest))
        (textColsOf r0 (c0 :: crest)) (numericColsOf r0 (c0 :: crest))
        c0 ((c0 :: crest).getD 1 c0) with
    | (t, x, y) => ⟨t, chartDataRows r0 (c0 :: crest) (r0 :: rrest), x, y⟩

theorem chartTypeAxes_ne_pie (rowCount : Nat)
    (dateCols textCols numericCols : List String) (x0 y0 : String) :
    ((chartTypeAxes rowCount dateCols textCols numericCols x0 y0).1 == "pie") = false := by
  cases numericCols with
  | nil =>
    cases dateCols <;> cases textCols <;> by_cases h : rowCount ≤ 10 <;>
      simp [chartTypeAxes, h]
  | cons n0 ns =>
    cases dateCols with
    | cons d0 ds => rfl
    | nil =>
      cases textCols with
      | cons t0 ts => rfl
      | nil => by_cases h : rowCount ≤ 10 <;> simp [chartTypeAxes, h]

/-- C6 (code_bug evidence): for EVERY date-parsing oracle, row list and
column list, `_generate_chart_data` never returns the chart kind `"pie"`
(the pie branch is dead code: its `elif` condition is subsumed by the
preceding bar branch), and in particular the claimed pie example
`[{dept:"Eng", count:5}, {dept:"Sales", count:3}]` yields kind `"bar"`
with x=`dept`, y=`count`. -/
theorem c6_chart_pie_unreachable :
    (∀ (dl : String → Bool) (rows : List (List (String × Value)))
      (columns : List String),
      ((generateChartData dl rows columns).type == "pie") = false) ∧
    generateChartData (fun _ => false)
      [[("dept", Value.vstr "Eng"), ("count", Value.vint 5)],
       [("dept", Value.vstr "Sales"), ("count", Value.vint 3)]]
      ["dept", "count"] =
      ⟨"bar",
       [[("dept", Value.vstr "Eng"), ("count", Value.vint 5)],
        [("dept", Value.vstr "Sales"), ("count", Value.vint 3)]],
       "dept", "count"⟩ := by
  constructor
  · intro dl rows columns
    unfold generateChartData
    split
    · decide
    · decide
    · next r0 rrest c0 crest =>
      rcases hT : chartTypeAxes (r0 :: rrest).length (dateColsOf dl r0 (c0 :: crest))
          (textColsOf r0 (c0 :: crest)) (numericColsOf r0 (c0 :: crest))
          c0 ((c0 :: crest).getD 1 c0) with ⟨t, x, y⟩
      have := chartTypeAxes_ne_pie (r0 :: rrest).length (dateColsOf dl r0 (c0 :: crest))
        (textColsOf r0 (c0 :: crest)) (numericColsOf r0 (c0 :: crest))
        c0 ((c0 :: crest).getD 1 c0)
      rw [hT] at this
      exact this
  · decide

/-! ## C3: the listConnections boundary and password masking

The store variant of src/services/database_config.py (top-level dict
keyed by user id, an `active_connection` pointer, records with a
cleartext password) and the `GET /api/database-config` handler of
src/main.py (lines 290-312).
-/

/-- One stored connection of the src/services store
(`{**connection_details, "schema": schema}`). -/
structure SConn (σ : Type) where
  host : String
  port : Nat
  database : String
  username : String
  password : String
  schema : Option σ
deriving DecidableEq, Repr

/-- One user's section: `{"connections": {...}, "active_connection": ...}`. -/
structure SUser (σ : Type) where
  connections : List (String × SConn σ)
  active_connection : Option String
deriving DecidableEq, Repr

/-- `DatabaseConfigService.get_current_connection` (src/services variant):
the record the `active_connection` pointer names, unmasked. -/
def sGetCurrentConnection {σ : Type} (config : List (String × SUser σ))
    (userId : String) : Option (SConn σ) :=
  match alookup config userId with
  | none => none
  | some u =>
    match u.active_connection with
    | none => none
    | some cid => alookup u.connections cid

/-- `DatabaseConfigService.get_all_connections` (src/services variant). -/
def sGetAllConnections {σ : Type} (config : List (String × SUser σ))
    (userId : String) : List (String × SConn σ) :=
  match alookup config userId with
  | none => []
  | some u => u.connections

/-- One entry of the handler's `connections` list:
`{"id": key, **conn_copy}` with `conn_copy["password"] = "***"`. -/
structure ConnEntry (σ : Type) where
  id : String
  host : String
  port : Nat
  database : String
  username : String
  password : String
  schema : Option σ
deriving DecidableEq, Repr

/-- The response body of `GET /api/database-config`. -/
structure DbConfigResponse (σ : Type) where
  success : Bool
  currentConnection : Option (SConn σ)
  connections : List (ConnEntry σ)
deriving DecidableEq, Repr

/-- The src/main.py `get_database_config` handler: the `connections` list
is masked entry by entry, but `currentConnection` is the raw
`get_current_connection` result — its password field is NOT masked. -/
def getDatabaseConfig {σ : Type} (config : List (String × SUser σ))
    (userId : String) : DbConfigResponse σ :=
  ⟨true,
   sGetCurrentConnection config userId,
   (sGetAllConnections config userId).map (fun kc =>
     ⟨kc.1, kc.2.host, kc.2.port, kc.2.database, kc.2.username, "***", kc.2.schema⟩)⟩

/-- A store whose user `u1` owns one active connection `c1` with the given
stored password. -/
def c3Store (password : String) : List (String × SUser Nat) :=
  [("u1", ⟨[("c1", ⟨"db.example.com", 5432, "appdb", "admin", password, some 0⟩)],
    some "c1"⟩)]

/-- C3 (code_bug evidence): the handler's response carries the real stored
password `"secret"` verbatim inside `currentConnection`, so two stores
differing only in the stored password produce DIFFERENT responses — the
noninterference the claim asserts fails — even though the `connections`
list itself is correctly masked (it is identical for both stores). -/
theorem c3_password_leak :
    (getDatabaseConfig (c3Store "secret") "u1").currentConnection =
      some ⟨"db.example.com", 5432, "appdb", "admin", "secret", some 0⟩ ∧
    getDatabaseConfig (c3Store "secret") "u1" ≠
      getDatabaseConfig (c3Store "hunter2") "u1" ∧
    (getDatabaseConfig (c3Store "secret") "u1").connections =
      (getDatabaseConfig (c3Store "hunter2") "u1").connections := by
  exact ⟨by decide, by decide, by decide⟩

/-! ## C9: load tolerance and layout migration

`DatabaseConfigService._load_config` in
src/backend/services/database_config.py (lines 41-59).
-/

/-- What reading the durable file can yield. -/
inductive RawFile (σ : Type) where
  /-- `open` or `json.load` raised: the file is absent or unreadable. -/
  | unreadable : RawFile σ
  /-- A parsed document with top-level `currentConnection` and
  `connections` keys: the older single-connection layout. -/
  | oldLayout (currentConnection : Option String)
      (connections : List (String × Conn σ)) : RawFile σ
  /-- A parsed document already in the multi-user `users` layout. -/
  | usersLayout (users : List (String × UserCfg σ)) : RawFile σ

/-- `DatabaseConfigService._load_config`: an absent/unreadable file becomes
the empty store (and is written out); a document carrying top-level
`currentConnection` and `connections` keys is wrapped under
`users.migration` and saved back in place; a `users` document loads as
is. The Bool records whether `_save_config` ran. -/
def loadConfig {σ : Type} : RawFile σ → Config σ × Bool
  | .unreadable => (⟨[]⟩, true)
  | .oldLayout cur conns => (⟨[("migration", ⟨cur, conns⟩)]⟩, true)
  | .usersLayout us => (⟨us⟩, false)

/-- C9: loading tolerates an absent or unreadable file as the empty store;
an old-layout document is migrated into the multi-user layout under user
`migration` and saved back in place; a new-layout document loads
unchanged without saving; and store operations (here
`get_current_connection`) see the migrated data. -/
theorem c9_load_migration {σ : Type} :
    (loadConfig (RawFile.unreadable : RawFile σ) = (⟨[]⟩, true)) ∧
    (∀ (cur : Option String) (conns : List (String × Conn σ)),
      loadConfig (RawFile.oldLayout cur conns) =
        (⟨[("migration", ⟨cur, conns⟩)]⟩, true)) ∧
    (∀ us : List (String × UserCfg σ),
      loadConfig (RawFile.usersLayout us) = (⟨us⟩, false)) ∧
    (∀ (k : String) (conns : List (String × Conn σ)) (r : Conn σ),
      alookup conns k = some r →
      getCurrentConnection (loadConfig (RawFile.oldLayout (some k) conns)).1
        "migration" = some r) := by
  refine ⟨rfl, fun _ _ => rfl, fun _ => rfl, ?_⟩
  intro k conns r h
  unfold getCurrentConnection
  rw [show alookup (loadConfig (RawFile.oldLayout (some k) conns)).1.users
      "migration" = some (⟨some k, conns⟩ : UserCfg σ) from alookup_cons_eq rfl]
  exact h

/-- C9 (witness): the migration conjunct applied to a concrete one-connection
old-layout file. -/
theorem c9_load_migration_witness :
    getCurrentConnection (loadConfig (RawFile.oldLayout (some "c1")
        [("c1", (⟨"h", 1, "d", "u", "pw", "postgresql", true, some 0, none⟩ :
          Conn Nat))])).1 "migration" =
      some ⟨"h", 1, "d", "u", "pw", "postgresql", true, some 0, none⟩ :=
  c9_load_migration.2.2.2 "c1"
    [("c1", ⟨"h", 1, "d", "u", "pw", "postgresql", true, some 0, none⟩)]
    ⟨"h", 1, "d", "u", "pw", "postgresql", true, some 0, none⟩ (by decide)

end KPI
